import Mathlib

set_option maxHeartbeats 1000000

namespace XUtilsGo

/-!
Shallow embedding of the `xutils-go` repository (packages `xrest`,
`xerrors`, `xlogger`) for checking its natural-language specification.

Go's `encoding/json` is external to the repository; it is modelled here at
the level of JSON values: a byte payload is either malformed (not valid
JSON) or a well-formed JSON value.  The model of `json.Unmarshal` into the
`restErr` struct follows Go's documented semantics for struct decoding:
`null` is accepted and leaves the target untouched, an object is decoded
field by field with tag names matched case-insensitively, unknown keys are
ignored, a matched key whose value has the wrong JSON type makes
`Unmarshal` return a non-nil error, and any other top-level JSON value is
a type error.
-/

/-- JSON values, the model of the byte payloads Go's `encoding/json`
produces and consumes.  Numbers are restricted to integers, which covers
every payload the repository serializes (`status_code` is a Go `int`). -/
inductive Json where
  | null
  | bool (b : Bool)
  | num (n : Int)
  | str (s : String)
  | arr (items : List Json)
  | obj (fields : List (String × Json))
deriving Repr

/-- Lower-case an ASCII letter, identity elsewhere; used to model Go's
case-insensitive matching of JSON keys against struct tags. -/
def lowerChar (c : Char) : Char :=
  if 'A' ≤ c ∧ c ≤ 'Z' then Char.ofNat (c.toNat + 32) else c

/-- Case-insensitive key comparison, the model of the case-folded match
`encoding/json` performs between object keys and field tags. -/
def keyFoldEq (a b : String) : Bool :=
  a.data.map lowerChar == b.data.map lowerChar

/-- Escape one character of a JSON string literal (quote and backslash;
the additional control/HTML escaping Go applies is abstracted away, no
theorem depends on the exact escape table). -/
def escapeJsonChar (c : Char) : String :=
  if c = '"' then "\\\"" else if c = '\\' then "\\\\" else String.singleton c

/-- Render a string as a JSON string literal. -/
def renderJsonString (s : String) : String :=
  "\"" ++ String.join (s.data.map escapeJsonChar) ++ "\""

mutual

/-- Render a JSON value to its textual encoding, the model of the bytes
produced by `json.Marshal`. -/
def renderJson : Json → String
  | Json.null => "null"
  | Json.bool b => if b then "true" else "false"
  | Json.num n => toString n
  | Json.str s => renderJsonString s
  | Json.arr items => "[" ++ renderJsonList items ++ "]"
  | Json.obj fields => "\x7b" ++ renderJsonFields fields ++ "\x7d"

/-- Render the comma-separated items of a JSON array. -/
def renderJsonList : List Json → String
  | [] => ""
  | x :: xs => renderJson x ++ (if xs.isEmpty then "" else ",") ++ renderJsonList xs

/-- Render the comma-separated fields of a JSON object. -/
def renderJsonFields : List (String × Json) → String
  | [] => ""
  | (k, v) :: kvs =>
      renderJsonString k ++ ":" ++ renderJson v ++
        (if kvs.isEmpty then "" else ",") ++ renderJsonFields kvs

end

/-! ### Package `xerrors` (src/xerrors/errors.go) -/

/-- The struct `restErr` of `src/xerrors/errors.go`, with JSON tags
`error`, `status_code`, `message` on its three fields. -/
structure restErr where
  ErrError : Bool
  ErrStatusCode : Int
  ErrMessage : String
deriving Repr, DecidableEq

/-- The zero value of the `restErr` struct, the starting point of Go's
`json.Unmarshal` into a fresh variable. -/
def restErrZero : restErr := { ErrError := false, ErrStatusCode := 0, ErrMessage := "" }

/-- The JSON value `json.Marshal` produces for a `restErr`: an object with
the tagged fields `error`, `status_code`, `message` in declaration
order. -/
def marshalRestErr (e : restErr) : Json :=
  Json.obj [("error", Json.bool e.ErrError),
            ("status_code", Json.num e.ErrStatusCode),
            ("message", Json.str e.ErrMessage)]

/-- Decode one object entry into the `restErr` being built, following
Go's struct decoding: tag names matched case-insensitively, `null`
accepted as a no-op for a matched field, a wrong-typed value for a matched
field is an error, unknown keys are skipped.  (Go records a type error
and keeps decoding the remaining fields before returning it; since the
caller discards the partially-filled struct whenever the error is
non-nil, short-circuiting here is observably the same.) -/
def restErrSetField (acc : restErr) (key : String) (v : Json) : Except String restErr :=
  if keyFoldEq key "error" then
    match v with
    | Json.bool b => Except.ok { acc with ErrError := b }
    | Json.null => Except.ok acc
    | _ => Except.error "json: cannot unmarshal value into field error of type bool"
  else if keyFoldEq key "status_code" then
    match v with
    | Json.num n => Except.ok { acc with ErrStatusCode := n }
    | Json.null => Except.ok acc
    | _ => Except.error "json: cannot unmarshal value into field status_code of type int"
  else if keyFoldEq key "message" then
    match v with
    | Json.str s => Except.ok { acc with ErrMessage := s }
    | Json.null => Except.ok acc
    | _ => Except.error "json: cannot unmarshal value into field message of type string"
  else Except.ok acc

/-- Fold the field decoder over the entries of a JSON object, stopping at
the first unacceptable entry. -/
def restErrDecodeFields (acc : restErr) : List (String × Json) → Except String restErr
  | [] => Except.ok acc
  | kv :: kvs =>
      match restErrSetField acc kv.1 kv.2 with
      | Except.error e => Except.error e
      | Except.ok a => restErrDecodeFields a kvs

/-- Model of `json.Unmarshal(bytes, &apiErr)` for a well-formed JSON
value: `null` leaves the zero value, an object is folded field by field,
any other top level is a type error. -/
def unmarshalRestErrJson (j : Json) : Except String restErr :=
  match j with
  | Json.null => Except.ok restErrZero
  | Json.obj kvs => restErrDecodeFields restErrZero kvs
  | _ => Except.error "json: cannot unmarshal value into Go value of type restErr"

/-- A byte payload as seen through `encoding/json`: either not valid JSON
at all, or a well-formed JSON value. -/
inductive Payload where
  | malformed (raw : String)
  | wellFormed (j : Json)
deriving Repr

/-- Model of `json.Unmarshal` on a byte payload: malformed bytes are a
syntax error, well-formed ones decode as above. -/
def jsonUnmarshalRestErr : Payload → Except String restErr
  | Payload.malformed _ => Except.error "invalid character in JSON input"
  | Payload.wellFormed j => unmarshalRestErrJson j

/-- The error message `NewRestErrorFromBytes` wraps every decode failure
in (`errors.New("invalid error json response")`). -/
def invalidErrorJsonMsg : String := "invalid error json response"

/-- Embedding of `NewRestErrorFromBytes` (src/xerrors/errors.go): the Go
pair `(RestErr, error)` is a pair of options, `(nil, err)` on decode
failure and `(apiErr, nil)` on success. -/
def NewRestErrorFromBytes (p : Payload) : Option restErr × Option String :=
  match jsonUnmarshalRestErr p with
  | Except.error _ => (none, some invalidErrorJsonMsg)
  | Except.ok apiErr => (some apiErr, none)

/-- Whether one object entry is acceptable to the decoder: each of the
three tagged keys (matched case-insensitively) must carry a value of the
field's JSON type or `null`; any other key is acceptable with any value. -/
def fieldWellTyped (kv : String × Json) : Bool :=
  if keyFoldEq kv.1 "error" then
    match kv.2 with
    | Json.bool _ => true
    | Json.null => true
    | _ => false
  else if keyFoldEq kv.1 "status_code" then
    match kv.2 with
    | Json.num _ => true
    | Json.null => true
    | _ => false
  else if keyFoldEq kv.1 "message" then
    match kv.2 with
    | Json.str _ => true
    | Json.null => true
    | _ => false
  else true

/-- Structural characterization of the payloads whose decode into
`restErr` succeeds: valid JSON that is `null` or an object all of whose
entries are acceptable. -/
def matchesRestErrShape : Payload → Bool
  | Payload.malformed _ => false
  | Payload.wellFormed Json.null => true
  | Payload.wellFormed (Json.obj kvs) => kvs.all fieldWellTyped
  | Payload.wellFormed _ => false

/-- Whether a key (case-folded) names one of the three `restErr` fields. -/
def isRestErrKey (k : String) : Bool :=
  keyFoldEq k "error" || keyFoldEq k "status_code" || keyFoldEq k "message"

/-! ### Package `xrest` (src/xrest/rest_client.go and its sibling file with
`MakeRequest`/`PostForm`)

Both files carry the same package state (`enabledMocks`, `mocks`) and the
same mock branch; the state is made explicit as a value threaded through
the operations.  Go's `*http.Response` is a pointer, so the `Response`
field of a mock is an `Option`; `nil` errors are `none`. -/

/-- Stand-in for `*http.Response`; its contents are never inspected by the
repository, only passed through. -/
structure HttpResponse where
  statusCode : Int
  body : String
deriving Repr, DecidableEq

/-- Go `error` values reachable in this package: `errors.New(s)` and the
error `json.Marshal` returns for an unserializable value (the
serialization error). -/
inductive GoError where
  | errMsg (s : String)
  | marshalError (desc : String)
deriving Repr, DecidableEq

/-- The error built by `errors.New("no mock found for given request")`. -/
def noMockFoundError : GoError := GoError.errMsg "no mock found for given request"

/-- The `Mock` struct of the `xrest` package. -/
structure Mock where
  URL : String
  HTTPMethod : String
  Response : Option HttpResponse
  Err : Option GoError
deriving Repr, DecidableEq

/-- The package-level state of `xrest`: the `enabledMocks` flag and the
`mocks` map, modelled as an association list with at most one entry per
key (maintained by `mapInsert`). -/
structure RestClientState where
  enabledMocks : Bool
  mocks : List (String × Mock)
deriving Repr, DecidableEq

/-- Lookup in the model of the Go map `mocks`; a missing key is Go's nil
pointer. -/
def mapLookup (m : List (String × Mock)) (k : String) : Option Mock :=
  match m.find? (fun kv => kv.1 == k) with
  | some kv => some kv.2
  | none => none

/-- Insertion in the model of the Go map `mocks`: the new binding replaces
any existing binding of the same key. -/
def mapInsert (m : List (String × Mock)) (k : String) (v : Mock) : List (String × Mock) :=
  (k, v) :: m.filter (fun kv => !(kv.1 == k))

/-- Embedding of `getMockID`: `fmt.Sprintf("%s_%s", httpMethod, url)`. -/
def getMockID (httpMethod url : String) : String :=
  httpMethod ++ "_" ++ url

/-- Embedding of `StartMockups`. -/
def StartMockups (st : RestClientState) : RestClientState :=
  { st with enabledMocks := true }

/-- Embedding of `FlushMockups`: `mocks = make(map[string]*Mock)`. -/
def FlushMockups (st : RestClientState) : RestClientState :=
  { st with mocks := [] }

/-- Embedding of `StopMockups`. -/
def StopMockups (st : RestClientState) : RestClientState :=
  { st with enabledMocks := false }

/-- Embedding of `AddMock`: `mocks[getMockID(mock.HTTPMethod, mock.URL)] = &mock`. -/
def AddMock (st : RestClientState) (mock : Mock) : RestClientState :=
  { st with mocks := mapInsert st.mocks (getMockID mock.HTTPMethod mock.URL) mock }

/-- A Go `interface{}` body as dispatched on by `MakeRequest`/`Post`: a
string (the `body.(string)` assertion succeeds), a JSON-serializable value
(`json.Marshal` yields its encoding), or a value `json.Marshal` rejects
(channel, function, cyclic value, NaN). -/
inductive BodyValue where
  | goString (s : String)
  | jsonValue (j : Json)
  | unserializable (desc : String)
deriving Repr

/-- Model of `json.Marshal` on an `interface{}` body. -/
def jsonMarshal (v : BodyValue) : Except GoError String :=
  match v with
  | BodyValue.goString s => Except.ok (renderJson (Json.str s))
  | BodyValue.jsonValue j => Except.ok (renderJson j)
  | BodyValue.unserializable d => Except.error (GoError.marshalError d)

/-- The serialization step of `MakeRequest`/`Post`: a string body is used
verbatim (`jsonBytes = []byte(w)`), anything else goes through
`json.Marshal`. -/
def serializeBody (body : BodyValue) : Except GoError String :=
  match body with
  | BodyValue.goString w => Except.ok w
  | _ => jsonMarshal body

/-- Go `http.Header` (`map[string][]string`). -/
abbrev Headers := List (String × List String)

/-- Model of `url.Values.Encode()`; the percent-encoding and key sorting
of the real encoder are abstracted away, no theorem depends on them. -/
def urlValuesEncode (data : List (String × List String)) : String :=
  String.intercalate "&"
    (data.map (fun kv => String.intercalate "&" (kv.2.map (fun v => kv.1 ++ "=" ++ v))))

/-- Observable outcome of a dispatch call.  `ret resp err` is a normal
return of the Go pair; `nilDeref` is the runtime panic raised by reading
`mock.Response` through a nil `mock` pointer; `sends m u payload h`
abstracts the non-mock path from `http.NewRequest` on: a real request
carrying `payload` as its body is built and executed. -/
inductive DispatchOutcome where
  | ret (resp : Option HttpResponse) (err : Option GoError)
  | nilDeref
  | sends (method url payload : String) (headers : Headers)
deriving Repr, DecidableEq

/-- Embedding of `MakeRequest`.  The mock branch is translated exactly as
written in the source: when a mock IS registered (`mock != nil`) the
function returns `errors.New("no mock found for given request")`, and when
none is registered it evaluates `mock.Response` on the nil pointer. -/
def MakeRequest (st : RestClientState) (method url : String) (body : BodyValue)
    (headers : Headers) : DispatchOutcome :=
  if st.enabledMocks then
    match mapLookup st.mocks (getMockID method url) with
    | some _ => DispatchOutcome.ret none (some noMockFoundError)
    | none => DispatchOutcome.nilDeref
  else
    match serializeBody body with
    | Except.error e => DispatchOutcome.ret none (some e)
    | Except.ok jsonBytes => DispatchOutcome.sends method url jsonBytes headers

/-- Embedding of `Post` (src/xrest/rest_client.go), which duplicates the
`MakeRequest` logic with the method fixed to `http.MethodPost`. -/
def Post (st : RestClientState) (url : String) (body : BodyValue)
    (headers : Headers) : DispatchOutcome :=
  if st.enabledMocks then
    match mapLookup st.mocks (getMockID "POST" url) with
    | some _ => DispatchOutcome.ret none (some noMockFoundError)
    | none => DispatchOutcome.nilDeref
  else
    match serializeBody body with
    | Except.error e => DispatchOutcome.ret none (some e)
    | Except.ok jsonBytes => DispatchOutcome.sends "POST" url jsonBytes headers

/-- Embedding of `PostForm`: same mock branch keyed on `http.MethodPost`,
and the form-encoded data as the payload on the real path. -/
def PostForm (st : RestClientState) (url : String) (data : List (String × List String))
    (headers : Headers) : DispatchOutcome :=
  if st.enabledMocks then
    match mapLookup st.mocks (getMockID "POST" url) with
    | some _ => DispatchOutcome.ret none (some noMockFoundError)
    | none => DispatchOutcome.nilDeref
  else
    DispatchOutcome.sends "POST" url (urlValuesEncode data) headers

/-! ### Package `xlogger` (src/xlogger/logger.go)

Uber's zap is external; its level gate is modelled by the documented
`zapcore.Level` ordering: a record is emitted exactly when its level is at
or above the level the core was configured with. -/

/-- The `zapcore.Level` constants. -/
inductive ZapcoreLevel where
  | debugLevel
  | infoLevel
  | warnLevel
  | errorLevel
  | dpanicLevel
  | panicLevel
  | fatalLevel
deriving Repr, DecidableEq

/-- Numeric severity of a `zapcore.Level` (Debug = -1 through Fatal = 5). -/
def ZapcoreLevel.toInt : ZapcoreLevel → Int
  | ZapcoreLevel.debugLevel => -1
  | ZapcoreLevel.infoLevel => 0
  | ZapcoreLevel.warnLevel => 1
  | ZapcoreLevel.errorLevel => 2
  | ZapcoreLevel.dpanicLevel => 3
  | ZapcoreLevel.panicLevel => 4
  | ZapcoreLevel.fatalLevel => 5

/-- Model of zap's level gate: a core configured at `configured` handles a
record of level `recordLevel` iff `configured <= recordLevel`. -/
def zapEnabled (configured recordLevel : ZapcoreLevel) : Bool :=
  configured.toInt ≤ recordLevel.toInt

/-- Embedding of `getLevel` (src/xlogger/logger.go): the exact `switch` of
the source, whose cases are `debug`, `info`, `warn`, `error`, `panic`,
`fatal`, with everything else falling to `zap.InfoLevel`. -/
def getLevel (level : String) : ZapcoreLevel :=
  match level with
  | "debug" => ZapcoreLevel.debugLevel
  | "info" => ZapcoreLevel.infoLevel
  | "warn" => ZapcoreLevel.warnLevel
  | "error" => ZapcoreLevel.errorLevel
  | "panic" => ZapcoreLevel.panicLevel
  | "fatal" => ZapcoreLevel.fatalLevel
  | _ => ZapcoreLevel.infoLevel

/-- The four leveled logging methods of `DefaultLogger` the specification
talks about. -/
inductive LoggerMethod where
  | debugM
  | infoM
  | warningM
  | errorM
deriving Repr, DecidableEq

/-- The zap level each `DefaultLogger` method logs its record at, read off
the source: `Debug` and `Info` call the like-named zap methods, `Warning`
calls `l.log.Debug`, and `Error` calls `l.log.Error`. -/
def methodRecordLevel : LoggerMethod → ZapcoreLevel
  | LoggerMethod.debugM => ZapcoreLevel.debugLevel
  | LoggerMethod.infoM => ZapcoreLevel.infoLevel
  | LoggerMethod.warningM => ZapcoreLevel.debugLevel
  | LoggerMethod.errorM => ZapcoreLevel.errorLevel

/-- Whether a `DefaultLogger` built by `NewLogger` with the given level
string emits a record to its sinks when the given method is called. -/
def defaultLoggerEmits (constructedLevel : String) (m : LoggerMethod) : Bool :=
  zapEnabled (getLevel constructedLevel) (methodRecordLevel m)

/-! ### Concrete fixtures for the mock registry -/

/-- A mock registered for `("POST", "http://x/y")` with a canned response
and a nil error. -/
def mockPostXY : Mock :=
  { URL := "http://x/y", HTTPMethod := "POST",
    Response := some { statusCode := 200, body := "canned" }, Err := none }

/-- State after `StartMockups()` and `AddMock(mockPostXY)` from a fresh
package state. -/
def mockedState : RestClientState :=
  AddMock (StartMockups { enabledMocks := false, mocks := [] }) mockPostXY

/-! ### Theorems for the claims -/

/-- C1: the specification says a dispatch while mocking is enabled returns
the registered mock's canned response/error and fails with
`NoMockFoundError` only when no mock matches.  The code has the nil-check
inverted: with a mock registered for `("POST", "http://x/y")`, dispatching
exactly that method and URL through `MakeRequest`, `Post` or `PostForm`
returns the "no mock found" error instead of the canned response, and
dispatching an unmocked method+URL dereferences the nil mock pointer
(runtime panic) instead of returning `NoMockFoundError`. -/
theorem mock_dispatch_inverted :
    MakeRequest mockedState "POST" "http://x/y" (BodyValue.goString "b") [] =
      DispatchOutcome.ret none (some noMockFoundError) ∧
    Post mockedState "http://x/y" (BodyValue.goString "b") [] =
      DispatchOutcome.ret none (some noMockFoundError) ∧
    PostForm mockedState "http://x/y" [] [] =
      DispatchOutcome.ret none (some noMockFoundError) ∧
    MakeRequest mockedState "GET" "http://x/y" (BodyValue.goString "b") [] =
      DispatchOutcome.nilDeref := by
  refine ⟨rfl, rfl, rfl, rfl⟩

/-- C2: the specification says that after `FlushMockups` a dispatch to a
previously-mocked method+URL fails with `NoMockFoundError` and does not
panic.  In the code, the emptied registry makes the lookup return nil and
the dispatch then reads `mock.Response` through the nil pointer: a runtime
panic, not a `NoMockFoundError`. -/
theorem flush_then_dispatch_nil_deref :
    (FlushMockups mockedState).enabledMocks = true ∧
    MakeRequest (FlushMockups mockedState) "POST" "http://x/y" (BodyValue.goString "b") [] =
      DispatchOutcome.nilDeref := by
  refine ⟨rfl, rfl⟩

/-- C3: with mocking disabled, a string body is sent verbatim as the
payload, any other value is sent as its JSON encoding, and a value
`json.Marshal` rejects makes the call return the serialization error
without building or sending a request; this holds for `MakeRequest` and
for `Post`. -/
theorem makeRequest_body_serialization (st : RestClientState) (method url : String)
    (headers : Headers) (h : st.enabledMocks = false) :
    (∀ s, MakeRequest st method url (BodyValue.goString s) headers =
        DispatchOutcome.sends method url s headers) ∧
    (∀ j, MakeRequest st method url (BodyValue.jsonValue j) headers =
        DispatchOutcome.sends method url (renderJson j) headers) ∧
    (∀ d, MakeRequest st method url (BodyValue.unserializable d) headers =
        DispatchOutcome.ret none (some (GoError.marshalError d))) ∧
    (∀ s, Post st url (BodyValue.goString s) headers =
        DispatchOutcome.sends "POST" url s headers) ∧
    (∀ j, Post st url (BodyValue.jsonValue j) headers =
        DispatchOutcome.sends "POST" url (renderJson j) headers) ∧
    (∀ d, Post st url (BodyValue.unserializable d) headers =
        DispatchOutcome.ret none (some (GoError.marshalError d))) := by
  refine ⟨fun s => ?_, fun j => ?_, fun d => ?_, fun s => ?_, fun j => ?_, fun d => ?_⟩ <;>
    simp [MakeRequest, Post, serializeBody, jsonMarshal, h]

/-- Witness for C3 at a concrete disabled state: an unserializable body
yields the serialization error. -/
theorem makeRequest_body_serialization_witness :
    ({ enabledMocks := false, mocks := [] } : RestClientState).enabledMocks = false ∧
    MakeRequest { enabledMocks := false, mocks := [] } "POST" "http://x/y"
        (BodyValue.unserializable "chan int") [] =
      DispatchOutcome.ret none (some (GoError.marshalError "chan int")) :=
  ⟨rfl,
    (makeRequest_body_serialization { enabledMocks := false, mocks := [] }
      "POST" "http://x/y" [] rfl).2.2.1 "chan int"⟩

/-- C6: the specification says `warning` maps to the warning severity, but
the `switch` in `getLevel` has no `"warning"` case (only `"warn"`), so the
package's own `WarningLevel` constant (`"warning"`) falls through to the
default and yields the info level. -/
theorem getLevel_warning_maps_to_info :
    getLevel "warning" = ZapcoreLevel.infoLevel ∧
    getLevel "debug" = ZapcoreLevel.debugLevel ∧
    getLevel "info" = ZapcoreLevel.infoLevel ∧
    getLevel "warn" = ZapcoreLevel.warnLevel ∧
    getLevel "error" = ZapcoreLevel.errorLevel ∧
    getLevel "panic" = ZapcoreLevel.panicLevel ∧
    getLevel "fatal" = ZapcoreLevel.fatalLevel ∧
    getLevel "verbose" = ZapcoreLevel.infoLevel := by
  refine ⟨rfl, rfl, rfl, rfl, rfl, rfl, rfl, rfl⟩

/-- C7: a logger constructed at level `error` emits nothing for Debug,
Info and Warning but emits for Error; a logger constructed at level
`debug` emits for all four methods.  (Warning emits at debug severity
because the source's `Warning` calls `l.log.Debug`, which does not change
which of the two configurations lets the record through.) -/
theorem level_gating_emission :
    (defaultLoggerEmits "error" LoggerMethod.debugM = false ∧
     defaultLoggerEmits "error" LoggerMethod.infoM = false ∧
     defaultLoggerEmits "error" LoggerMethod.warningM = false ∧
     defaultLoggerEmits "error" LoggerMethod.errorM = true) ∧
    (defaultLoggerEmits "debug" LoggerMethod.debugM = true ∧
     defaultLoggerEmits "debug" LoggerMethod.infoM = true ∧
     defaultLoggerEmits "debug" LoggerMethod.warningM = true ∧
     defaultLoggerEmits "debug" LoggerMethod.errorM = true) := by
  refine ⟨⟨rfl, rfl, rfl, rfl⟩, ⟨rfl, rfl, rfl, rfl⟩⟩

/-- C8: while mocking is enabled the outcome of `MakeRequest` and `Post`
depends only on the method, the URL and the registry: any two bodies give
the same outcome, and the serialization error can never occur. -/
theorem mock_dispatch_ignores_body (st : RestClientState) (method url : String)
    (hd : Headers) (h : st.enabledMocks = true) :
    (∀ b1 b2 : BodyValue, MakeRequest st method url b1 hd = MakeRequest st method url b2 hd) ∧
    (∀ (b : BodyValue) (d : String),
        MakeRequest st method url b hd ≠
          DispatchOutcome.ret none (some (GoError.marshalError d))) ∧
    (∀ b1 b2 : BodyValue, Post st url b1 hd = Post st url b2 hd) ∧
    (∀ (b : BodyValue) (d : String),
        Post st url b hd ≠ DispatchOutcome.ret none (some (GoError.marshalError d))) := by
  have hmk : ∀ b : BodyValue, MakeRequest st method url b hd =
      (match mapLookup st.mocks (getMockID method url) with
       | some _ => DispatchOutcome.ret none (some noMockFoundError)
       | none => DispatchOutcome.nilDeref) := by
    intro b; simp [MakeRequest, h]
  have hpost : ∀ b : BodyValue, Post st url b hd =
      (match mapLookup st.mocks (getMockID "POST" url) with
       | some _ => DispatchOutcome.ret none (some noMockFoundError)
       | none => DispatchOutcome.nilDeref) := by
    intro b; simp [Post, h]
  refine ⟨fun b1 b2 => by rw [hmk, hmk], fun b d => ?_,
    fun b1 b2 => by rw [hpost, hpost], fun b d => ?_⟩
  · rw [hmk]
    cases mapLookup st.mocks (getMockID method url) <;> simp [noMockFoundError]
  · rw [hpost]
    cases mapLookup st.mocks (getMockID "POST" url) <;> simp [noMockFoundError]

/-- Witness for C8 at the concrete mocked state: a string body and an
unserializable body give the same outcome. -/
theorem mock_dispatch_ignores_body_witness :
    mockedState.enabledMocks = true ∧
    MakeRequest mockedState "POST" "http://x/y" (BodyValue.goString "a") [] =
      MakeRequest mockedState "POST" "http://x/y" (BodyValue.unserializable "chan int") [] :=
  ⟨rfl, (mock_dispatch_ignores_body mockedState "POST" "http://x/y" [] rfl).1 _ _⟩

/-- Entries surviving the removal step of `mapInsert` never carry the
inserted key. -/
theorem filter_not_key_nil (l : List (String × Mock)) (k : String) :
    (l.filter (fun kv => !(kv.1 == k))).filter (fun kv => kv.1 == k) = [] := by
  induction l with
  | nil => rfl
  | cons a l ih =>
      by_cases hak : a.1 = k
      · simp [List.filter_cons, hak, ih]
      · simp [List.filter_cons, hak, ih]

/-- After an insertion, exactly one entry of the map model carries the
inserted key. -/
theorem length_filter_mapInsert (l : List (String × Mock)) (k : String) (v : Mock) :
    ((mapInsert l k v).filter (fun kv => kv.1 == k)).length = 1 := by
  simp [mapInsert, List.filter_cons, filter_not_key_nil l k]

/-- C10: two successive `AddMock` calls whose mocks share the HTTP method
and the URL land on the same composite key, so the second replaces the
first: the lookup of that key yields the last-registered mock, and the
registry holds exactly one entry under that key. -/
theorem addMock_replaces_same_key (st : RestClientState) (m1 m2 : Mock)
    (hm : m1.HTTPMethod = m2.HTTPMethod) (hu : m1.URL = m2.URL) :
    AddMock (AddMock st m1) m2 = AddMock st m2 ∧
    mapLookup (AddMock (AddMock st m1) m2).mocks (getMockID m2.HTTPMethod m2.URL) = some m2 ∧
    ((AddMock (AddMock st m1) m2).mocks.filter
        (fun kv => kv.1 == getMockID m2.HTTPMethod m2.URL)).length = 1 := by
  have hk : getMockID m1.HTTPMethod m1.URL = getMockID m2.HTTPMethod m2.URL := by
    rw [getMockID, getMockID, hm, hu]
  refine ⟨?_, ?_, length_filter_mapInsert _ _ _⟩
  · simp [AddMock, mapInsert, hk, List.filter_filter]
  · simp [AddMock, mapInsert, mapLookup, List.find?]

/-- Witness for C10: re-registering the same method+URL with a different
canned response makes the lookup return the second mock. -/
theorem addMock_replaces_same_key_witness :
    mapLookup
        (AddMock (AddMock { enabledMocks := true, mocks := [] } mockPostXY)
          { URL := "http://x/y", HTTPMethod := "POST", Response := none,
            Err := some (GoError.errMsg "boom") }).mocks
        (getMockID "POST" "http://x/y") =
      some { URL := "http://x/y", HTTPMethod := "POST", Response := none,
             Err := some (GoError.errMsg "boom") } :=
  (addMock_replaces_same_key { enabledMocks := true, mocks := [] } mockPostXY
    { URL := "http://x/y", HTTPMethod := "POST", Response := none,
      Err := some (GoError.errMsg "boom") } rfl rfl).2.1

/-- Decoding a single object entry succeeds exactly when the entry is
acceptable to the decoder. -/
theorem restErrSetField_isOk (acc : restErr) (k : String) (v : Json) :
    (∃ r, restErrSetField acc k v = Except.ok r) ↔ fieldWellTyped (k, v) = true := by
  unfold restErrSetField fieldWellTyped
  by_cases h1 : keyFoldEq k "error" = true
  · simp only [h1, if_true]
    cases v <;> simp
  · simp only [h1, Bool.false_eq_true, if_false,
      (Bool.not_eq_true _).mp h1]
    by_cases h2 : keyFoldEq k "status_code" = true
    · simp only [h2, if_true]
      cases v <;> simp
    · simp only [h2, Bool.false_eq_true, if_false,
        (Bool.not_eq_true _).mp h2]
      by_cases h3 : keyFoldEq k "message" = true
      · simp only [h3, if_true]
        cases v <;> simp
      · simp only [h3, Bool.false_eq_true, if_false,
          (Bool.not_eq_true _).mp h3]
        simp

/-- Folding the field decoder over an object's entries succeeds exactly
when every entry is acceptable, whatever struct value the fold starts
from. -/
theorem restErrDecodeFields_isOk (kvs : List (String × Json)) :
    ∀ acc : restErr,
      (∃ r, restErrDecodeFields acc kvs = Except.ok r) ↔ kvs.all fieldWellTyped = true := by
  induction kvs with
  | nil => intro acc; simp [restErrDecodeFields]
  | cons kv kvs ih =>
      intro acc
      rw [List.all_cons, Bool.and_eq_true]
      cases hs : restErrSetField acc kv.1 kv.2 with
      | error e =>
          have hft : ¬ fieldWellTyped kv = true := by
            intro hft
            obtain ⟨r, hr⟩ := (restErrSetField_isOk acc kv.1 kv.2).mpr hft
            rw [hs] at hr
            exact Except.noConfusion hr
          constructor
          · rintro ⟨r, hr⟩
            simp only [restErrDecodeFields, hs] at hr
            exact Except.noConfusion hr
          · rintro ⟨h1, _⟩
            exact absurd h1 hft
      | ok a =>
          have hft : fieldWellTyped kv = true :=
            (restErrSetField_isOk acc kv.1 kv.2).mp ⟨a, hs⟩
          constructor
          · rintro ⟨r, hr⟩
            simp only [restErrDecodeFields, hs] at hr
            exact ⟨hft, (ih a).mp ⟨r, hr⟩⟩
          · rintro ⟨_, h2⟩
            obtain ⟨r, hr⟩ := (ih a).mpr h2
            refine ⟨r, ?_⟩
            simp only [restErrDecodeFields, hs]
            exact hr

/-- C4: serializing any `restErr` to the JSON payload with fields `error`,
`status_code`, `message` and parsing it back with `NewRestErrorFromBytes`
succeeds and returns the original value. -/
theorem restErr_roundtrip (e : restErr) :
    NewRestErrorFromBytes (Payload.wellFormed (marshalRestErr e)) = (some e, none) := by
  obtain ⟨b, n, s⟩ := e
  rfl

/-- C5: `NewRestErrorFromBytes` never panics and its only failure mode is
the decode error: on every payload outside the shape the decoder accepts
(malformed bytes, a non-object top level, or a wrong-typed `error`,
`status_code` or `message` field) it returns nil plus the
"invalid error json response" error, and on every payload inside that
shape it returns a value and a nil error. -/
theorem fromBytes_decode_error_characterization (p : Payload) :
    (matchesRestErrShape p = false →
        NewRestErrorFromBytes p = (none, some invalidErrorJsonMsg)) ∧
    (matchesRestErrShape p = true →
        ∃ e, NewRestErrorFromBytes p = (some e, none)) := by
  cases p with
  | malformed raw =>
      simp [matchesRestErrShape, NewRestErrorFromBytes, jsonUnmarshalRestErr]
  | wellFormed j =>
      cases j with
      | null =>
          simp [matchesRestErrShape, NewRestErrorFromBytes, jsonUnmarshalRestErr,
            unmarshalRestErrJson]
      | obj kvs =>
          constructor
          · intro hf
            have hnot : ¬ ∃ r, restErrDecodeFields restErrZero kvs = Except.ok r := by
              rw [restErrDecodeFields_isOk]
              simp only [matchesRestErrShape] at hf
              simp [hf]
            cases hfold : restErrDecodeFields restErrZero kvs with
            | error msg =>
                simp [NewRestErrorFromBytes, jsonUnmarshalRestErr, unmarshalRestErrJson, hfold]
            | ok r => exact absurd ⟨r, hfold⟩ hnot
          · intro ht
            simp only [matchesRestErrShape] at ht
            obtain ⟨r, hr⟩ := (restErrDecodeFields_isOk kvs restErrZero).mpr ht
            exact ⟨r, by simp [NewRestErrorFromBytes, jsonUnmarshalRestErr,
              unmarshalRestErrJson, hr]⟩
      | bool b =>
          simp [matchesRestErrShape, NewRestErrorFromBytes, jsonUnmarshalRestErr,
            unmarshalRestErrJson]
      | num n =>
          simp [matchesRestErrShape, NewRestErrorFromBytes, jsonUnmarshalRestErr,
            unmarshalRestErrJson]
      | str s =>
          simp [matchesRestErrShape, NewRestErrorFromBytes, jsonUnmarshalRestErr,
            unmarshalRestErrJson]
      | arr items =>
          simp [matchesRestErrShape, NewRestErrorFromBytes, jsonUnmarshalRestErr,
            unmarshalRestErrJson]

/-- Witness for C5 at concrete payloads: malformed bytes fail with the
decode error. -/
theorem fromBytes_decode_error_characterization_witness :
    matchesRestErrShape (Payload.malformed "not json") = false ∧
    NewRestErrorFromBytes (Payload.malformed "not json") = (none, some invalidErrorJsonMsg) :=
  ⟨rfl, (fromBytes_decode_error_characterization (Payload.malformed "not json")).1 rfl⟩

/-- C9 counterexample: `{"error": 5}` is a valid JSON object, yet
`NewRestErrorFromBytes` fails on it with the decode error, because the
present `error` field has the wrong JSON type; so the claim that the
function succeeds on every valid JSON object is false. -/
theorem fromBytes_wrong_typed_field_fails :
    NewRestErrorFromBytes (Payload.wellFormed (Json.obj [("error", Json.num 5)])) =
      (none, some invalidErrorJsonMsg) := rfl

/-- Entries whose keys name none of the three fields are skipped by the
decoder, leaving the struct untouched. -/
theorem restErrDecodeFields_skip (kvs : List (String × Json))
    (hnone : kvs.all (fun kv => !(isRestErrKey kv.1)) = true) :
    ∀ acc : restErr, restErrDecodeFields acc kvs = Except.ok acc := by
  induction kvs with
  | nil => intro _; rfl
  | cons kv kvs ih =>
      rw [List.all_cons, Bool.and_eq_true] at hnone
      intro acc
      have hkeys := hnone.1
      simp only [isRestErrKey, Bool.not_eq_true', Bool.or_eq_false_iff] at hkeys
      have hset : restErrSetField acc kv.1 kv.2 = Except.ok acc := by
        unfold restErrSetField
        simp [hkeys.1.1, hkeys.1.2, hkeys.2]
      simp only [restErrDecodeFields, hset]
      exact ih hnone.2 acc

/-- C9 (amended): `NewRestErrorFromBytes` succeeds on every valid JSON
object whose `error`, `status_code` and `message` fields, where present,
carry the expected JSON types (absent fields are allowed, unknown keys are
ignored); when none of the three keys occurs, the result is the struct's
zero value: `IsError` false, `StatusCode` 0, `Message` empty. -/
theorem fromBytes_lenient_object_decode (kvs : List (String × Json))
    (h : kvs.all fieldWellTyped = true) :
    (∃ e, NewRestErrorFromBytes (Payload.wellFormed (Json.obj kvs)) = (some e, none)) ∧
    (kvs.all (fun kv => !(isRestErrKey kv.1)) = true →
        NewRestErrorFromBytes (Payload.wellFormed (Json.obj kvs)) = (some restErrZero, none)) := by
  constructor
  · obtain ⟨r, hr⟩ := (restErrDecodeFields_isOk kvs restErrZero).mpr h
    exact ⟨r, by simp [NewRestErrorFromBytes, jsonUnmarshalRestErr, unmarshalRestErrJson, hr]⟩
  · intro hnone
    simp [NewRestErrorFromBytes, jsonUnmarshalRestErr, unmarshalRestErrJson,
      restErrDecodeFields_skip kvs hnone restErrZero]

/-- Witness for C9's amended statement: an object carrying only an unknown
key decodes to the zero value. -/
theorem fromBytes_lenient_object_decode_witness :
    ([("extra", Json.str "x")].all fieldWellTyped = true) ∧
    ([("extra", Json.str "x")].all (fun kv => !(isRestErrKey kv.1)) = true) ∧
    NewRestErrorFromBytes (Payload.wellFormed (Json.obj [("extra", Json.str "x")])) =
      (some restErrZero, none) :=
  ⟨rfl, rfl,
    (fromBytes_lenient_object_decode [("extra", Json.str "x")] rfl).2 rfl⟩

end XUtilsGo
